import Mathlib

/-!
Verification of the radio-bridge protocol layer of `mbjorck69/radio-bridge`
(file `src/services/apiService.ts`): the minimal protobuf-style binary
encoder (`ProtoBuilder`), the serial frame construction (`SerialHandler.sendText`),
the UTF-8-safe message truncation and transport dispatch (`sendToMeshtastic`),
and the serial connection manager state machine (`SerialHandler`).

JavaScript strings are modelled as lists of UTF-16 code units (naturals below
2^16); byte buffers are lists of naturals below 256; JS 32-bit coercions
(`>>> 0`, `>>> k`, `& 0xFF`) are modelled with explicit `% 2^32`, division and
`% 256` on `Nat`.
-/

namespace RadioBridge

/-! ## TextEncoder: WHATWG UTF-8 encoding of a UTF-16 code-unit sequence

`new TextEncoder().encode(text)` converts the JS string (a sequence of UTF-16
code units) to UTF-8, combining surrogate pairs into supplementary code points
and replacing every unpaired surrogate with U+FFFD (3 bytes `EF BF BD`). -/

/-- UTF-8 encoding of one Unicode scalar value (1 to 4 bytes). -/
def utf8Enc (cp : Nat) : List Nat :=
  if cp < 128 then [cp]
  else if cp < 2048 then [192 + cp / 64, 128 + cp % 64]
  else if cp < 65536 then [224 + cp / 4096, 128 + cp / 64 % 64, 128 + cp % 64]
  else [240 + cp / 262144, 128 + cp / 4096 % 64, 128 + cp / 64 % 64, 128 + cp % 64]

/-- Encoding of a single code unit that is not part of a surrogate pair:
an unpaired surrogate (0xD800-0xDFFF) is replaced by U+FFFD = 65533;
anything else is a BMP scalar value encoded directly. -/
def encUnit (u : Nat) : List Nat :=
  if 55296 ≤ u ∧ u ≤ 57343 then utf8Enc 65533 else utf8Enc u

/-- `TextEncoder.encode` on a list of UTF-16 code units: a high surrogate
(0xD800-0xDBFF) followed by a low surrogate (0xDC00-0xDFFF) combines into a
supplementary code point; everything else goes through `encUnit`. -/
def encodeUnits : List Nat → List Nat
  | [] => []
  | [u] => encUnit u
  | u :: v :: rest =>
    if 55296 ≤ u ∧ u ≤ 56319 then
      if 56320 ≤ v ∧ v ≤ 57343 then
        utf8Enc (65536 + (u - 55296) * 1024 + (v - 56320)) ++ encodeUnits rest
      else
        encUnit u ++ encodeUnits (v :: rest)
    else
      encUnit u ++ encodeUnits (v :: rest)

/-- A UTF-16 code-unit sequence is well formed when every high surrogate is
immediately followed by a low surrogate and no low surrogate appears on its
own; such a sequence is a concatenation of complete code points. -/
def wellFormedUtf16 : List Nat → Bool
  | [] => true
  | [u] => decide (¬ (55296 ≤ u ∧ u ≤ 57343))
  | u :: v :: rest =>
    if 55296 ≤ u ∧ u ≤ 56319 then
      decide (56320 ≤ v ∧ v ≤ 57343) && wellFormedUtf16 rest
    else if 56320 ≤ u ∧ u ≤ 57343 then false
    else wellFormedUtf16 (v :: rest)

/-! ## ProtoBuilder (`apiService.ts` lines 37-97)

Each `ProtoBuilder` method only appends to the internal buffer, so every
method is modelled as the list of bytes it appends. -/

/-- Loop body of `ProtoBuilder.addVarint`: while `value > 127` push
`(value & 0x7F) | 0x80` and shift right by 7; finally push `value`.
For a 32-bit value the loop runs at most 4 times, so fuel 5 is exact. -/
def varintF : Nat → Nat → List Nat
  | 0, v => [v % 128]
  | fuel + 1, v => if 127 < v then (v % 128 + 128) :: varintF fuel (v / 128) else [v]

/-- `ProtoBuilder.addVarint(value)`: `value = value >>> 0` (coercion to u32),
then the 7-bit group loop. -/
def addVarintBytes (v : Nat) : List Nat := varintF 5 (v % 4294967296)

/-- `ProtoBuilder.addTag(fieldId, wireType)`: varint of `(fieldId << 3) | wireType`. -/
def addTagBytes (fieldId wireType : Nat) : List Nat :=
  addVarintBytes ((fieldId <<< 3) ||| wireType)

/-- `ProtoBuilder.addString(fieldId, text)`: tag with wire type 2, then the
varint byte length of the UTF-8 encoding, then the UTF-8 bytes.
`text` is the JS string as UTF-16 code units. -/
def addStringBytes (fieldId : Nat) (text : List Nat) : List Nat :=
  addTagBytes fieldId 2 ++ addVarintBytes (encodeUnits text).length ++ encodeUnits text

/-- `ProtoBuilder.addBool(fieldId, value)`: tag with wire type 0, then varint 0 or 1. -/
def addBoolBytes (fieldId : Nat) (b : Bool) : List Nat :=
  addTagBytes fieldId 0 ++ addVarintBytes (if b then 1 else 0)

/-- `ProtoBuilder.addUInt32(fieldId, value)`: tag with wire type 0, then varint. -/
def addUInt32Bytes (fieldId v : Nat) : List Nat :=
  addTagBytes fieldId 0 ++ addVarintBytes v

/-- `ProtoBuilder.addFixed32(fieldId, value)`: tag with wire type 5, then the
four bytes `(value >>> 0) & 0xFF`, `(value >>> 8) & 0xFF`, `(value >>> 16) & 0xFF`,
`(value >>> 24) & 0xFF` (little endian). -/
def addFixed32Bytes (fieldId v : Nat) : List Nat :=
  addTagBytes fieldId 5 ++
    [v % 4294967296 % 256, v % 4294967296 / 256 % 256,
     v % 4294967296 / 65536 % 256, v % 4294967296 / 16777216 % 256]

/-- `ProtoBuilder.addNested(fieldId, nested)`: tag with wire type 2, then the
varint byte length of the nested builder's bytes, then those bytes. -/
def addNestedBytes (fieldId : Nat) (nested : List Nat) : List Nat :=
  addTagBytes fieldId 2 ++ addVarintBytes nested.length ++ nested

/-! ## `SerialHandler.sendText` message composition (lines 234-266)

The pure byte-level part of `sendText`, with the random packet id as a
parameter. -/

/-- The `Data` message: `addUInt32(1, 1)` (portnum = TEXT_MESSAGE_APP) then
`addString(2, text)`. -/
def dataBytes (text : List Nat) : List Nat :=
  addUInt32Bytes 1 1 ++ addStringBytes 2 text

/-- The `MeshPacket` message: fixed32 from = 0, fixed32 to = 0xFFFFFFFF,
varint channel, nested `Data`, fixed32 packet id, varint hopLimit = 3,
bool wantAck = true, in source order. -/
def meshPacketBytes (text : List Nat) (channelIndex packetId : Nat) : List Nat :=
  addFixed32Bytes 1 0 ++
  addFixed32Bytes 2 4294967295 ++
  addUInt32Bytes 3 channelIndex ++
  addNestedBytes 4 (dataBytes text) ++
  addFixed32Bytes 6 packetId ++
  addUInt32Bytes 10 3 ++
  addBoolBytes 11 true

/-- The `ToRadio` wrapper: `addNested(1, meshPacket)`. -/
def toRadioMsgBytes (text : List Nat) (channelIndex packetId : Nat) : List Nat :=
  addNestedBytes 1 (meshPacketBytes text channelIndex packetId)

/-- The final serial frame (lines 263-274): header `0x94 0xC3`, then
`(protoBytes.length >>> 8) & 0xFF` and `protoBytes.length & 0xFF`, then the
`ToRadio` bytes. There is no size check on `protoBytes.length`. -/
def sendTextFrame (text : List Nat) (channelIndex packetId : Nat) : List Nat :=
  [148, 195,
   (toRadioMsgBytes text channelIndex packetId).length / 256 % 256,
   (toRadioMsgBytes text channelIndex packetId).length % 256] ++
  toRadioMsgBytes text channelIndex packetId

/-! ## Message safety truncation (`sendToMeshtastic` lines 309-327)

The JS loop `while (encoder.encode(safeText).length > MAX_BYTES)
safeText = safeText.slice(0, -1)` drops one UTF-16 code unit per step.
It is modelled with fuel equal to the initial code-unit count: each step
shortens the string by one unit, so the fuel can never run out before the
loop condition goes false (at the empty string the measured length is 0,
respectively 3 for the ellipsis variant, both at most 190). -/

/-- The operational byte budget `MAX_BYTES = 190`. -/
def MAX_BYTES : Nat := 190

/-- The ellipsis `"..."` as UTF-16 code units. -/
def ellipsisUnits : List Nat := [46, 46, 46]

/-- First trimming loop: while the UTF-8 byte length exceeds `MAX_BYTES`,
drop the last UTF-16 code unit (`safeText.slice(0, -1)`). -/
def trimLoopF : Nat → List Nat → List Nat
  | 0, s => s
  | fuel + 1, s =>
    if MAX_BYTES < (encodeUnits s).length then trimLoopF fuel s.dropLast else s

/-- Second trimming loop: while the UTF-8 byte length of `safeText + "..."`
exceeds `MAX_BYTES`, drop the last UTF-16 code unit. -/
def trimEllF : Nat → List Nat → List Nat
  | 0, s => s
  | fuel + 1, s =>
    if MAX_BYTES < (encodeUnits (s ++ ellipsisUnits)).length then trimEllF fuel s.dropLast
    else s

/-- The truncation policy of `sendToMeshtastic` (serial path): trim to the
byte budget; if any code unit was dropped (`safeText.length < text.length`),
trim further so the ellipsis fits and append `"..."`. -/
def truncateText (text : List Nat) : List Nat :=
  let safe := trimLoopF text.length text
  if safe.length < text.length then
    trimEllF safe.length safe ++ ellipsisUnits
  else safe

/-! ## Spec-side wire format (claim C1 / spec section 6)

These definitions follow the specification's words, to be compared with the
definitions translated from the source: bytes `0x94 0xC3`, a big-endian
16-bit payload length, then a `ToRadio` message with the fixed field layout;
varints are 7-bit groups, least significant first, continuation bit `0x80`
on every byte except the last; each field is preceded by the tag
`(fieldNumber << 3) | wireType`. -/

/-- Modelled from the spec: "encode unsigned value 7 bits at a time,
least-significant first; every byte except the last carries the continuation
bit (0x80)". -/
def specVarint (v : Nat) : List Nat :=
  if h : v < 128 then [v] else (v % 128 + 128) :: specVarint (v / 128)
decreasing_by
  exact Nat.div_lt_self (by omega) (by omega)

/-- Modelled from the spec: the tag `(fieldNumber << 3) | wireType`, varint
encoded. -/
def specTag (fieldNumber wireType : Nat) : List Nat :=
  specVarint ((fieldNumber <<< 3) ||| wireType)

/-- Modelled from the spec: a fixed32 value as 4 bytes, little endian. -/
def specLE32 (v : Nat) : List Nat :=
  [v % 256, v / 256 % 256, v / 65536 % 256, v / 16777216 % 256]

/-- Modelled from the spec: `Data {1: varint portnum = 1, 2: length-delimited
payload}` where the payload is the UTF-8 text. -/
def specData (textBytes : List Nat) : List Nat :=
  specTag 1 0 ++ specVarint 1 ++
  specTag 2 2 ++ specVarint textBytes.length ++ textBytes

/-- Modelled from the spec: `MeshPacket {1: fixed32 from = 0, 2: fixed32
to = 0xFFFFFFFF, 3: varint channel, 4: nested Data, 6: fixed32 id,
10: varint hopLimit = 3, 11: varint wantAck = 1}`, in that order. -/
def specMeshPacket (textBytes : List Nat) (channel packetId : Nat) : List Nat :=
  specTag 1 5 ++ specLE32 0 ++
  specTag 2 5 ++ specLE32 4294967295 ++
  specTag 3 0 ++ specVarint channel ++
  specTag 4 2 ++ specVarint (specData textBytes).length ++ specData textBytes ++
  specTag 6 5 ++ specLE32 packetId ++
  specTag 10 0 ++ specVarint 3 ++
  specTag 11 0 ++ specVarint 1

/-- Modelled from the spec: `ToRadio {1: nested MeshPacket}`. -/
def specToRadioMsg (textBytes : List Nat) (channel packetId : Nat) : List Nat :=
  specTag 1 2 ++ specVarint (specMeshPacket textBytes channel packetId).length ++
  specMeshPacket textBytes channel packetId

/-- Modelled from the spec: bytes `0x94 0xC3`, then the big-endian 16-bit
byte count of the `ToRadio` encoding, then that encoding. -/
def specFrame (textBytes : List Nat) (channel packetId : Nat) : List Nat :=
  [148, 195,
   (specToRadioMsg textBytes channel packetId).length / 256 % 256,
   (specToRadioMsg textBytes channel packetId).length % 256] ++
  specToRadioMsg textBytes channel packetId

/-! ## Varint decoding and significant bit count (claim C9) -/

/-- Decoder for the varint wire format: 7 bits per byte, least significant
group first; the continuation bit of each byte is discarded by `% 128`. -/
def varintDecode : List Nat → Nat
  | [] => 0
  | b :: rest => b % 128 + 128 * varintDecode rest

/-- The number of significant bits of `v`: the number of binary digits needed
to write `v`, at least one (zero is written with one digit). -/
def bitsNeeded (v : Nat) : Nat :=
  if h : v ≤ 1 then 1 else 1 + bitsNeeded (v / 2)
decreasing_by
  exact Nat.div_lt_self (by omega) (by omega)

/-! ## SerialHandler connection state machine (lines 102-290)

Mutable instance state: `port` (a Web Serial port, here its `readable` /
`writable` stream availability), `writer` (`this.writer`, which the source
never assigns outside `cleanupAndNotify`), and `isConnected`. Listener
notifications (`setConnected` invokes every callback with the new status)
are modelled as the list of boolean values emitted by an operation, in
order. Platform interactions (`requestPort`, `open`, `getPorts`, the write)
are inputs of each operation. -/

/-- Availability of the `readable` and `writable` streams of a port:
both are null before `open()` succeeds and after `close()`. -/
structure PortState where
  readable : Bool
  writable : Bool
deriving DecidableEq, Repr

/-- The mutable fields of the `SerialHandler` singleton. -/
structure HandlerState where
  port : Option PortState
  writerHeld : Bool
  isConnected : Bool
deriving DecidableEq, Repr

/-- The state of the module-level `serialHandler` at construction:
no port, no writer, not connected. -/
def initialState : HandlerState := ⟨none, false, false⟩

/-- DOMException names distinguished by `connect`'s catch block. -/
inductive ErrName where
  | notFoundErr
  | securityErr
  | networkErr
  | otherErr
deriving DecidableEq, Repr

/-- The typed errors surfaced by `connect`: the guard error for a missing
Web Serial API, and the three mapped messages of the catch block plus the
rethrown original. -/
inductive ConnectError where
  | notSupported
  | noDeviceSelected
  | securityContext
  | deviceUnavailable
  | unknownFailure
deriving DecidableEq, Repr

/-- The catch block's mapping from `error.name` to the thrown message:
`NotFoundError` (user closed the picker) becomes "No device selected",
`SecurityError` becomes the HTTPS/localhost message, `NetworkError` becomes
the disconnected-or-busy message, anything else is rethrown. -/
def mapConnectError : ErrName → ConnectError
  | .notFoundErr => .noDeviceSelected
  | .securityErr => .securityContext
  | .networkErr => .deviceUnavailable
  | .otherErr => .unknownFailure

/-- Outcome of `navigator.serial.requestPort({})`. -/
inductive RequestPortOutcome where
  | granted
  | rejected (e : ErrName)
deriving DecidableEq, Repr

/-- Outcome of `port.open({baudRate: 115200})`. -/
inductive OpenOutcome where
  | opened
  | openFailed (e : ErrName)
deriving DecidableEq, Repr

/-- `SerialHandler.connect` (lines 150-181). When the API is unsupported it
throws before touching any state. Otherwise `requestPort` either rejects
(caught: `setConnected(false)` notifies `[false]`, a mapped error is thrown,
and `this.port` is left unchanged) or grants a port which is stored in
`this.port`; `open` then either succeeds (`setConnected(true)` notifies
`[true]`) or fails (caught: the unopened port stays stored,
`setConnected(false)` notifies `[false]`, a mapped error is thrown).
Returns the new state, the notifications fired, and the typed result. -/
def connect (st : HandlerState) (supported : Bool) (req : RequestPortOutcome)
    (openRes : OpenOutcome) : HandlerState × List Bool × Except ConnectError Bool :=
  if supported = false then (st, [], .error .notSupported)
  else
    match req with
    | .rejected e =>
      ({ st with isConnected := false }, [false], .error (mapConnectError e))
    | .granted =>
      match openRes with
      | .opened =>
        ({ st with port := some ⟨true, true⟩, isConnected := true }, [true], .ok true)
      | .openFailed e =>
        ({ st with port := some ⟨false, false⟩, isConnected := false }, [false],
          .error (mapConnectError e))

/-- `SerialHandler.connectToExisting` (lines 186-212): silent reuse of a
granted port. `getPorts` yields no port (return false, untouched state) or a
first port, stored in `this.port`; if its streams are already live the
handler marks itself connected at once, otherwise it opens the port; an open
failure is swallowed (return false, the stored port keeps its dead streams,
`isConnected` is left as it was). -/
def connectToExisting (st : HandlerState) (supported : Bool)
    (avail : Option PortState) (openRes : OpenOutcome) :
    HandlerState × List Bool × Bool :=
  if supported = false then (st, [], false)
  else
    match avail with
    | none => (st, [], false)
    | some p =>
      if p.readable = true ∨ p.writable = true then
        ({ st with port := some p, isConnected := true }, [true], true)
      else
        match openRes with
        | .opened =>
          ({ st with port := some ⟨true, true⟩, isConnected := true }, [true], true)
        | .openFailed _ => ({ st with port := some p }, [], false)

/-- `SerialHandler.cleanupAndNotify` (lines 134-148): release the writer
(errors swallowed), close and clear the port (errors swallowed), then
`setConnected(false)` which notifies every listener with `false`. -/
def cleanupAndNotify (_st : HandlerState) : HandlerState × List Bool :=
  ((⟨none, false, false⟩ : HandlerState), [false])

/-- `SerialHandler.disconnect` (lines 214-216) delegates to `cleanupAndNotify`. -/
def disconnect (st : HandlerState) : HandlerState × List Bool :=
  cleanupAndNotify st

/-- The `navigator.serial` `disconnect` event handler (lines 112-116): when
the removed device is the currently held port, run `cleanupAndNotify`;
otherwise nothing happens. -/
def onUnplug (st : HandlerState) (matchesPort : Bool) : HandlerState × List Bool :=
  if matchesPort = true then cleanupAndNotify st else (st, [])

/-- Errors thrown by `sendText` before or during the write. -/
inductive SendError where
  | portNotConnected
  | portNotWritable
  | writeFailed
deriving DecidableEq, Repr

/-- `SerialHandler.sendText` (lines 225-286). Guards: `!this.port ||
!this.isConnected` throws "Serial port not connected"; `!this.port.writable`
throws "Serial port not writable". Then the frame is composed and written
through a scoped writer that is released in a `finally` on every exit path.
Returns the result (the frame that was written, or the error), the number of
writers acquired and the number released. The source never assigns any
instance field here, so the handler state is unchanged. -/
def sendTextOp (st : HandlerState) (text : List Nat) (channelIndex packetId : Nat)
    (writeOk : Bool) : Except SendError (List Nat) × Nat × Nat :=
  match st.port with
  | none => (.error .portNotConnected, 0, 0)
  | some p =>
    if st.isConnected = false then (.error .portNotConnected, 0, 0)
    else if p.writable = false then (.error .portNotWritable, 0, 0)
    else if writeOk then (.ok (sendTextFrame text channelIndex packetId), 1, 1)
    else (.error .writeFailed, 1, 1)

/-! ## Transport selection (`sendToMeshtastic`, lines 295-374) -/

/-- `connectionMode` of the configuration. -/
inductive ConnectionMode where
  | http
  | serial
deriving DecidableEq, Repr

/-- The JSON body of the HTTP PUT to `/api/v1/toRadio` (lines 341-349):
broadcast target (JSON key `to`, here `toAddr`), decoded text and portnum,
channel index, want_ack. -/
structure MeshHttpBody where
  toAddr : Nat
  text : List Nat
  portnum : Nat
  channel : Nat
  want_ack : Bool
deriving DecidableEq, Repr

/-- Construction of the HTTP body: `{to: 4294967295, decoded: {text: text,
portnum: 1}, channel: config.meshtasticChannelIndex, want_ack: true}`.
The text is the raw argument of `sendToMeshtastic`. -/
def buildHttpBody (text : List Nat) (channelIndex : Nat) : MeshHttpBody :=
  ⟨4294967295, text, 1, channelIndex, true⟩

/-- What one `sendToMeshtastic` call does: fail fast with the
"Device not connected" configuration error, fail inside `sendText`, write a
serial frame, or issue the HTTP PUT. Only `serialSent` carries bytes to the
device. -/
inductive SendOutcome where
  | configNotConnected
  | serialErr (e : SendError)
  | serialSent (frame : List Nat)
  | httpPut (body : MeshHttpBody)
deriving DecidableEq, Repr

/-- `sendToMeshtastic`: in serial mode, check `getConnectedStatus()` first
and throw the configuration error while disconnected; otherwise truncate the
text and call `sendText`. In HTTP mode, PUT the body built from the raw
text. No instance state is assigned on any path, so the handler state is
returned unchanged. -/
def sendToMeshtastic (mode : ConnectionMode) (st : HandlerState)
    (channelIndex : Nat) (text : List Nat) (packetId : Nat) (writeOk : Bool) :
    SendOutcome × HandlerState :=
  match mode with
  | .serial =>
    if st.isConnected = false then (.configNotConnected, st)
    else
      match (sendTextOp st (truncateText text) channelIndex packetId writeOk).1 with
      | .ok frame => (.serialSent frame, st)
      | .error e => (.serialErr e, st)
  | .http => (.httpPut (buildHttpBody text channelIndex), st)

/-! ## Connection-manager invariant (claim C8) -/

/-- Whether the handler currently holds a write-capable device handle:
a stored port whose `writable` stream is live. -/
def writeCapable (st : HandlerState) : Bool :=
  match st.port with
  | some p => p.writable
  | none => false

/-- The spec invariant: a write-capable handle exists only while connected. -/
def HandlerInv (st : HandlerState) : Prop :=
  writeCapable st = true → st.isConnected = true

instance : DecidablePred HandlerInv := by
  intro st
  unfold HandlerInv
  infer_instance

/-! ## Concrete inputs used in witnesses and counterexamples -/

/-- The UTF-16 code units of `"Hello"`. -/
def helloUnits : List Nat := [72, 101, 108, 108, 111]

/-- A text of 65600 ASCII `a` characters, whose encoded `ToRadio` message
exceeds the 16-bit frame length field. -/
def bigText : List Nat := List.replicate 65600 97

/-- 184 ASCII `a` characters followed by two astral characters U+1F600
(each the surrogate pair `0xD83D 0xDE00`): a well-formed UTF-16 string. -/
def astralInput : List Nat :=
  List.replicate 184 97 ++ [55357, 56832, 55357, 56832]

/-- A text of 300 ASCII `a` characters (UTF-8 byte length 300). -/
def longText : List Nat := List.replicate 300 97

/-- A handler state holding an open, write-capable port while connected,
as produced by a successful `connect`. -/
def connectedState : HandlerState := ⟨some ⟨true, true⟩, false, true⟩

/-! # Helper lemmas -/

/-! ## Varint lemmas -/

theorem varintF_eq_specVarint (fuel : Nat) :
    ∀ v, v < 128 ^ (fuel + 1) → varintF fuel v = specVarint v := by
  induction fuel with
  | zero =>
    intro v hv
    norm_num at hv
    rw [varintF, specVarint, dif_pos hv, Nat.mod_eq_of_lt hv]
  | succ fuel ih =>
    intro v hv
    by_cases h : 127 < v
    · have hv2 : v / 128 < 128 ^ (fuel + 1) := by
        have hp : (128 : Nat) ^ (fuel + 1 + 1) = 128 ^ (fuel + 1) * 128 := by
          rw [pow_succ]
        omega
      rw [specVarint, dif_neg (by omega : ¬ v < 128)]
      simp only [varintF, if_pos h]
      rw [ih (v / 128) hv2]
    · simp only [varintF, if_neg h]
      rw [specVarint, dif_pos (by omega : v < 128)]

theorem addVarintBytes_eq_specVarint (v : Nat) (h : v < 4294967296) :
    addVarintBytes v = specVarint v := by
  unfold addVarintBytes
  rw [Nat.mod_eq_of_lt h]
  exact varintF_eq_specVarint 5 v (by norm_num; omega)

theorem addTagBytes_eq_specTag (f w : Nat) (h : (f <<< 3) ||| w < 4294967296) :
    addTagBytes f w = specTag f w := by
  unfold addTagBytes specTag
  exact addVarintBytes_eq_specVarint _ h

theorem varintF_length_le (fuel : Nat) : ∀ v, (varintF fuel v).length ≤ fuel + 1 := by
  induction fuel with
  | zero => intro v; simp [varintF]
  | succ fuel ih =>
    intro v
    by_cases h : 127 < v
    · simp only [varintF, if_pos h, List.length_cons]
      have := ih (v / 128)
      omega
    · simp [varintF, if_neg h]

theorem addVarintBytes_length_le (v : Nat) : (addVarintBytes v).length ≤ 6 :=
  varintF_length_le 5 _

theorem addTagBytes_length_le (f w : Nat) : (addTagBytes f w).length ≤ 6 :=
  addVarintBytes_length_le _

theorem varintDecode_varintF (fuel : Nat) :
    ∀ v, v < 128 ^ (fuel + 1) → varintDecode (varintF fuel v) = v := by
  induction fuel with
  | zero =>
    intro v hv
    norm_num at hv
    simp only [varintF, varintDecode]
    omega
  | succ fuel ih =>
    intro v hv
    by_cases h : 127 < v
    · have hv2 : v / 128 < 128 ^ (fuel + 1) := by
        have hp : (128 : Nat) ^ (fuel + 1 + 1) = 128 ^ (fuel + 1) * 128 := by
          rw [pow_succ]
        omega
      simp only [varintF, if_pos h, varintDecode]
      rw [ih (v / 128) hv2]
      omega
    · simp only [varintF, if_neg h, varintDecode]
      omega

theorem one_le_bitsNeeded (v : Nat) : 1 ≤ bitsNeeded v := by
  rw [bitsNeeded]
  split <;> omega

theorem bitsNeeded_step (v : Nat) (h : 2 ≤ v) :
    bitsNeeded v = 1 + bitsNeeded (v / 2) := by
  rw [bitsNeeded, dif_neg (by omega : ¬ v ≤ 1)]

theorem bitsNeeded_le_pow (v : Nat) :
    ∀ k, 1 ≤ k → v < 2 ^ k → bitsNeeded v ≤ k := by
  induction v using Nat.strong_induction_on with
  | _ v ih =>
    intro k hk hv
    by_cases h1 : v ≤ 1
    · rw [bitsNeeded, dif_pos h1]
      omega
    · rw [bitsNeeded, dif_neg h1]
      have hk2 : 2 ≤ k := by
        by_contra hc
        have hk1 : k = 1 := by omega
        subst hk1
        norm_num at hv
        omega
      have hp : (2 : Nat) ^ k = 2 * 2 ^ (k - 1) := by
        conv_lhs => rw [← Nat.succ_pred_eq_of_pos (by omega : 0 < k)]
        rw [pow_succ, Nat.pred_eq_sub_one]
        ring
      have hrec : bitsNeeded (v / 2) ≤ k - 1 :=
        ih (v / 2) (by omega) (k - 1) (by omega) (by omega)
      omega

theorem bitsNeeded_div128 (v : Nat) (h : 128 ≤ v) :
    bitsNeeded v = 7 + bitsNeeded (v / 128) := by
  have d1 : v / 2 / 2 = v / 4 := by omega
  have d2 : v / 4 / 2 = v / 8 := by omega
  have d3 : v / 8 / 2 = v / 16 := by omega
  have d4 : v / 16 / 2 = v / 32 := by omega
  have d5 : v / 32 / 2 = v / 64 := by omega
  have d6 : v / 64 / 2 = v / 128 := by omega
  rw [bitsNeeded_step v (by omega), bitsNeeded_step (v / 2) (by omega), d1,
      bitsNeeded_step (v / 4) (by omega), d2, bitsNeeded_step (v / 8) (by omega), d3,
      bitsNeeded_step (v / 16) (by omega), d4, bitsNeeded_step (v / 32) (by omega), d5,
      bitsNeeded_step (v / 64) (by omega), d6]
  omega

theorem varintF_length_eq (fuel : Nat) :
    ∀ v, v < 128 ^ (fuel + 1) → (varintF fuel v).length = (bitsNeeded v + 6) / 7 := by
  induction fuel with
  | zero =>
    intro v hv
    norm_num at hv
    have h1 := one_le_bitsNeeded v
    have h7 : bitsNeeded v ≤ 7 := bitsNeeded_le_pow v 7 (by omega) (by norm_num; omega)
    simp only [varintF, List.length_cons, List.length_nil]
    omega
  | succ fuel ih =>
    intro v hv
    by_cases h : 127 < v
    · have hv2 : v / 128 < 128 ^ (fuel + 1) := by
        have hp : (128 : Nat) ^ (fuel + 1 + 1) = 128 ^ (fuel + 1) * 128 := by
          rw [pow_succ]
        omega
      simp only [varintF, if_pos h, List.length_cons]
      rw [ih (v / 128) hv2, bitsNeeded_div128 v (by omega)]
      have := one_le_bitsNeeded (v / 128)
      omega
    · have h1 := one_le_bitsNeeded v
      have h7 : bitsNeeded v ≤ 7 := bitsNeeded_le_pow v 7 (by omega) (by omega)
      simp only [varintF, if_neg h, List.length_cons, List.length_nil]
      omega

/-! ## TextEncoder lemmas -/

theorem encodeUnits_cons_nonsurrogate (u : Nat) (s : List Nat)
    (h : u < 55296 ∨ 57343 < u) :
    encodeUnits (u :: s) = utf8Enc u ++ encodeUnits s := by
  match s with
  | [] =>
    simp only [encodeUnits, encUnit, if_neg (by omega : ¬ (55296 ≤ u ∧ u ≤ 57343)),
      List.append_nil]
  | v :: rest =>
    simp only [encodeUnits, if_neg (by omega : ¬ (55296 ≤ u ∧ u ≤ 56319)), encUnit,
      if_neg (by omega : ¬ (55296 ≤ u ∧ u ≤ 57343))]

theorem encodeUnits_replicate_a (n : Nat) :
    encodeUnits (List.replicate n 97) = List.replicate n 97 := by
  induction n with
  | zero => rfl
  | succ n ih =>
    rw [List.replicate_succ, encodeUnits_cons_nonsurrogate 97 _ (by omega), ih]
    rfl

theorem wellFormedUtf16_of_nonsurrogate (s : List Nat)
    (h : ∀ u ∈ s, u < 55296 ∨ 57343 < u) : wellFormedUtf16 s = true := by
  induction s with
  | nil => rfl
  | cons u rest ih =>
    have hu := h u (List.mem_cons_self u rest)
    match rest with
    | [] =>
      simp only [wellFormedUtf16, decide_eq_true_eq]
      omega
    | v :: rest2 =>
      rw [wellFormedUtf16]
      rw [if_neg (by omega : ¬ (55296 ≤ u ∧ u ≤ 56319)),
          if_neg (by omega : ¬ (56320 ≤ u ∧ u ≤ 57343))]
      exact ih (fun w hw => h w (List.mem_cons_of_mem u hw))

/-! ## Trimming-loop lemmas -/

theorem trimLoopF_le (fuel : Nat) :
    ∀ s : List Nat, s.length ≤ fuel →
      (encodeUnits (trimLoopF fuel s)).length ≤ MAX_BYTES := by
  induction fuel with
  | zero =>
    intro s hs
    have hnil : s = [] := List.eq_nil_of_length_eq_zero (by omega)
    subst hnil
    simp [trimLoopF, encodeUnits, MAX_BYTES]
  | succ fuel ih =>
    intro s hs
    by_cases h : MAX_BYTES < (encodeUnits s).length
    · have hne : s ≠ [] := by
        intro hc
        subst hc
        simp [encodeUnits, MAX_BYTES] at h
      have hlen : s.dropLast.length = s.length - 1 := List.length_dropLast s
      have hpos : 0 < s.length := List.length_pos.mpr hne
      simp only [trimLoopF, if_pos h]
      exact ih s.dropLast (by omega)
    · simp only [trimLoopF, if_neg h]
      omega

theorem trimEllF_le (fuel : Nat) :
    ∀ s : List Nat, s.length ≤ fuel →
      (encodeUnits (trimEllF fuel s ++ ellipsisUnits)).length ≤ MAX_BYTES := by
  induction fuel with
  | zero =>
    intro s hs
    have hnil : s = [] := List.eq_nil_of_length_eq_zero (by omega)
    subst hnil
    simp only [trimEllF]
    decide
  | succ fuel ih =>
    intro s hs
    by_cases h : MAX_BYTES < (encodeUnits (s ++ ellipsisUnits)).length
    · have hne : s ≠ [] := by
        intro hc
        subst hc
        revert h
        decide
      have hlen : s.dropLast.length = s.length - 1 := List.length_dropLast s
      have hpos : 0 < s.length := List.length_pos.mpr hne
      simp only [trimEllF, if_pos h]
      exact ih s.dropLast (by omega)
    · simp only [trimEllF, if_neg h]
      omega

theorem trimLoopF_of_le (fuel : Nat) (s : List Nat)
    (h : (encodeUnits s).length ≤ MAX_BYTES) : trimLoopF fuel s = s := by
  cases fuel with
  | zero => rfl
  | succ fuel => simp only [trimLoopF, if_neg (by omega : ¬ MAX_BYTES < (encodeUnits s).length)]

theorem truncateText_utf8_le (text : List Nat) :
    (encodeUnits (truncateText text)).length ≤ MAX_BYTES := by
  rw [truncateText]
  by_cases h : (trimLoopF text.length text).length < text.length
  · simp only [if_pos h]
    exact trimEllF_le _ _ (le_refl _)
  · simp only [if_neg h]
    exact trimLoopF_le _ _ (le_refl _)

theorem truncateText_of_le (text : List Nat)
    (h : (encodeUnits text).length ≤ MAX_BYTES) : truncateText text = text := by
  rw [truncateText, trimLoopF_of_le _ _ h]
  simp

theorem trimLoopF_extendsTo (fuel : Nat) :
    ∀ s : List Nat, ∃ t, trimLoopF fuel s ++ t = s := by
  induction fuel with
  | zero => intro s; exact ⟨[], List.append_nil _⟩
  | succ fuel ih =>
    intro s
    by_cases h : MAX_BYTES < (encodeUnits s).length
    · have hne : s ≠ [] := by
        intro hc
        subst hc
        simp [encodeUnits, MAX_BYTES] at h
      obtain ⟨t, ht⟩ := ih s.dropLast
      simp only [trimLoopF, if_pos h]
      refine ⟨t ++ [s.getLast hne], ?_⟩
      rw [← List.append_assoc, ht, List.dropLast_append_getLast]
    · simp only [trimLoopF, if_neg h]
      exact ⟨[], List.append_nil _⟩

theorem trimEllF_extendsTo (fuel : Nat) :
    ∀ s : List Nat, ∃ t, trimEllF fuel s ++ t = s := by
  induction fuel with
  | zero => intro s; exact ⟨[], List.append_nil _⟩
  | succ fuel ih =>
    intro s
    by_cases h : MAX_BYTES < (encodeUnits (s ++ ellipsisUnits)).length
    · have hne : s ≠ [] := by
        intro hc
        subst hc
        revert h
        decide
      obtain ⟨t, ht⟩ := ih s.dropLast
      simp only [trimEllF, if_pos h]
      refine ⟨t ++ [s.getLast hne], ?_⟩
      rw [← List.append_assoc, ht, List.dropLast_append_getLast]
    · simp only [trimEllF, if_neg h]
      exact ⟨[], List.append_nil _⟩

/-! ## Wire-format refinement lemmas (source encoder versus spec layout) -/

theorem addUInt32Bytes_eq_spec (f v : Nat) (ht : (f <<< 3) ||| 0 < 4294967296)
    (hv : v < 4294967296) :
    addUInt32Bytes f v = specTag f 0 ++ specVarint v := by
  unfold addUInt32Bytes
  rw [addTagBytes_eq_specTag f 0 ht, addVarintBytes_eq_specVarint v hv]

theorem addBoolBytes_true_eq_spec (f : Nat) (ht : (f <<< 3) ||| 0 < 4294967296) :
    addBoolBytes f true = specTag f 0 ++ specVarint 1 := by
  unfold addBoolBytes
  rw [addTagBytes_eq_specTag f 0 ht, if_pos rfl,
      addVarintBytes_eq_specVarint 1 (by norm_num)]

theorem addFixed32Bytes_eq_spec (f v : Nat) (ht : (f <<< 3) ||| 5 < 4294967296)
    (hv : v < 4294967296) :
    addFixed32Bytes f v = specTag f 5 ++ specLE32 v := by
  unfold addFixed32Bytes specLE32
  rw [addTagBytes_eq_specTag f 5 ht, Nat.mod_eq_of_lt hv]

theorem addNestedBytes_eq_spec (f : Nat) (n : List Nat)
    (ht : (f <<< 3) ||| 2 < 4294967296) (hn : n.length < 4294967296) :
    addNestedBytes f n = specTag f 2 ++ specVarint n.length ++ n := by
  unfold addNestedBytes
  rw [addTagBytes_eq_specTag f 2 ht, addVarintBytes_eq_specVarint n.length hn,
      List.append_assoc]

theorem dataBytes_eq_spec (text : List Nat) (h : (encodeUnits text).length ≤ 190) :
    dataBytes text = specData (encodeUnits text) := by
  unfold dataBytes specData addStringBytes
  rw [addUInt32Bytes_eq_spec 1 1 (by decide) (by norm_num),
      addTagBytes_eq_specTag 2 2 (by decide),
      addVarintBytes_eq_specVarint (encodeUnits text).length (by omega)]
  simp [List.append_assoc]

theorem dataBytes_length_le (text : List Nat) (h : (encodeUnits text).length ≤ 190) :
    (dataBytes text).length ≤ 214 := by
  have b1 := addTagBytes_length_le 1 0
  have b2 := addVarintBytes_length_le 1
  have b3 := addTagBytes_length_le 2 2
  have b4 := addVarintBytes_length_le (encodeUnits text).length
  simp only [dataBytes, addUInt32Bytes, addStringBytes, List.length_append]
  omega

theorem meshPacketBytes_eq_spec (text : List Nat) (ch pid : Nat)
    (h : (encodeUnits text).length ≤ 190) (hch : ch ≤ 7) (hpid : pid < 4294967296) :
    meshPacketBytes text ch pid = specMeshPacket (encodeUnits text) ch pid := by
  have hdata := dataBytes_eq_spec text h
  have hdlen : (dataBytes text).length < 4294967296 := by
    have := dataBytes_length_le text h
    omega
  unfold meshPacketBytes specMeshPacket
  rw [addFixed32Bytes_eq_spec 1 0 (by decide) (by norm_num),
      addFixed32Bytes_eq_spec 2 4294967295 (by decide) (by norm_num),
      addUInt32Bytes_eq_spec 3 ch (by decide) (by omega),
      addNestedBytes_eq_spec 4 (dataBytes text) (by decide) hdlen,
      addFixed32Bytes_eq_spec 6 pid (by decide) hpid,
      addUInt32Bytes_eq_spec 10 3 (by decide) (by norm_num),
      addBoolBytes_true_eq_spec 11 (by decide),
      hdata]
  simp [List.append_assoc]

theorem meshPacketBytes_length_le (text : List Nat) (ch pid : Nat)
    (h : (encodeUnits text).length ≤ 190) :
    (meshPacketBytes text ch pid).length ≤ 300 := by
  have b1 := addTagBytes_length_le 1 5
  have b2 := addTagBytes_length_le 2 5
  have b3 := addTagBytes_length_le 3 0
  have b4 := addVarintBytes_length_le ch
  have b5 := addTagBytes_length_le 4 2
  have b6 := addVarintBytes_length_le (dataBytes text).length
  have b7 := dataBytes_length_le text h
  have b8 := addTagBytes_length_le 6 5
  have b9 := addTagBytes_length_le 10 0
  have b10 := addVarintBytes_length_le 3
  have b11 := addTagBytes_length_le 11 0
  have b12 := addVarintBytes_length_le 1
  have b13 := addVarintBytes_length_le (if True then 1 else 0)
  simp only [meshPacketBytes, addFixed32Bytes, addUInt32Bytes, addNestedBytes,
    addBoolBytes, if_pos rfl, List.length_append, List.length_cons, List.length_nil]
  omega

theorem toRadioMsgBytes_eq_spec (text : List Nat) (ch pid : Nat)
    (h : (encodeUnits text).length ≤ 190) (hch : ch ≤ 7) (hpid : pid < 4294967296) :
    toRadioMsgBytes text ch pid = specToRadioMsg (encodeUnits text) ch pid := by
  have hmesh := meshPacketBytes_eq_spec text ch pid h hch hpid
  have hmlen : (meshPacketBytes text ch pid).length < 4294967296 := by
    have := meshPacketBytes_length_le text ch pid h
    omega
  unfold toRadioMsgBytes specToRadioMsg
  rw [addNestedBytes_eq_spec 1 (meshPacketBytes text ch pid) (by decide) hmlen, hmesh]

/-! # Claims -/

/-- C1: For every text whose UTF-8 encoding is at most 190 bytes and every
channel index 0-7 (and any 32-bit packet id), the serial send operation
writes exactly the bytes `0x94 0xC3`, then the big-endian 16-bit byte count
of the encoded `ToRadio` message, then the `ToRadio` encoding with the fixed
field layout of the spec (from = 0, to = 0xFFFFFFFF, varint channel, nested
`Data` with portnum = 1 and the UTF-8 text, little-endian fixed32 packet id,
hopLimit = 3, wantAck = 1, each field preceded by its tag). -/
theorem serial_send_wire_format (text : List Nat) (ch pid : Nat)
    (h : (encodeUnits text).length ≤ 190) (hch : ch ≤ 7) (hpid : pid < 4294967296) :
    sendTextFrame text ch pid = specFrame (encodeUnits text) ch pid := by
  have hrad := toRadioMsgBytes_eq_spec text ch pid h hch hpid
  unfold sendTextFrame specFrame
  rw [hrad]

/-- Witness for C1 at text `"Hello"`, channel 0, packet id 0x12345678. -/
theorem serial_send_wire_format_witness :
    (encodeUnits helloUnits).length ≤ 190 ∧ (0 : Nat) ≤ 7 ∧
    (305419896 : Nat) < 4294967296 ∧
    sendTextFrame helloUnits 0 305419896 = specFrame (encodeUnits helloUnits) 0 305419896 :=
  ⟨by decide, by decide, by decide,
    serial_send_wire_format helloUnits 0 305419896 (by decide) (by decide) (by decide)⟩

/-- C3: For every input, the truncator's output has UTF-8 byte length at
most `MAX_BYTES = 190`. -/
theorem truncator_byte_budget (text : List Nat) :
    (encodeUnits (truncateText text)).length ≤ 190 :=
  truncateText_utf8_le text

/-- C5: The truncator is idempotent: a string already within the 190-byte
budget is returned unchanged, and re-applying the truncator to its own
output is a no-op. -/
theorem truncator_idempotent (s : List Nat) :
    ((encodeUnits s).length ≤ 190 → truncateText s = s) ∧
    truncateText (truncateText s) = truncateText s := by
  constructor
  · exact truncateText_of_le s
  · exact truncateText_of_le _ (truncateText_utf8_le s)

/-- Witness for C5 at text `"Hello"` (5 bytes, within budget). -/
theorem truncator_idempotent_witness :
    (encodeUnits helloUnits).length ≤ 190 ∧ truncateText helloUnits = helloUnits ∧
    truncateText (truncateText helloUnits) = truncateText helloUnits :=
  ⟨by decide, (truncator_idempotent helloUnits).1 (by decide),
    (truncator_idempotent helloUnits).2⟩

/-- C7: A send in serial mode while the handler is disconnected fails with
the "Device not connected" configuration error: the outcome carries no
frame (nothing is composed, framed or written) and the handler state is
returned unchanged, independently of the text. -/
theorem serial_send_disconnected_fails (st : HandlerState) (ch : Nat)
    (text : List Nat) (pid : Nat) (writeOk : Bool) (h : st.isConnected = false) :
    sendToMeshtastic .serial st ch text pid writeOk = (.configNotConnected, st) := by
  unfold sendToMeshtastic
  rw [if_pos h]

/-- Witness for C7 at the initial (disconnected) state. -/
theorem serial_send_disconnected_fails_witness :
    initialState.isConnected = false ∧
    sendToMeshtastic .serial initialState 0 helloUnits 0 true =
      (.configNotConnected, initialState) :=
  ⟨by decide, serial_send_disconnected_fails initialState 0 helloUnits 0 true (by decide)⟩

/-- C9: For every 32-bit unsigned value, decoding the varint encoding yields
the value back, and the encoding's byte count equals
`ceil(bits_needed / 7)` where `bits_needed` is the number of significant
bits (at least one). -/
theorem varint_roundtrip_and_length (v : Nat) (h : v < 4294967296) :
    varintDecode (addVarintBytes v) = v ∧
    (addVarintBytes v).length = (bitsNeeded v + 6) / 7 := by
  constructor
  · unfold addVarintBytes
    rw [Nat.mod_eq_of_lt h]
    exact varintDecode_varintF 5 v (by norm_num; omega)
  · unfold addVarintBytes
    rw [Nat.mod_eq_of_lt h]
    exact varintF_length_eq 5 v (by norm_num; omega)

/-- Witness for C9 at v = 300. -/
theorem varint_roundtrip_and_length_witness :
    (300 : Nat) < 4294967296 ∧
    (varintDecode (addVarintBytes 300) = 300 ∧
      (addVarintBytes 300).length = (bitsNeeded 300 + 6) / 7) :=
  ⟨by decide, varint_roundtrip_and_length 300 (by decide)⟩

/-- The encoded `ToRadio` message for 65600 `a` characters is 65635 bytes
long, which exceeds the 16-bit frame length field. -/
theorem bigText_toRadio_length : (toRadioMsgBytes bigText 0 0).length = 65635 := by
  have henc : encodeUnits bigText = bigText := encodeUnits_replicate_a 65600
  have hlen : (encodeUnits bigText).length = 65600 := by
    rw [henc, bigText, List.length_replicate]
  have t1 : (addTagBytes 1 0).length = 1 := by decide
  have t2 : (addVarintBytes 1).length = 1 := by decide
  have t3 : (addTagBytes 2 2).length = 1 := by decide
  have t4 : (addVarintBytes 65600).length = 3 := by decide
  have hdata : (dataBytes bigText).length = 65606 := by
    simp only [dataBytes, addUInt32Bytes, addStringBytes, List.length_append, hlen,
      t1, t2, t3, t4]
  have u1 : (addFixed32Bytes 1 0).length = 5 := by decide
  have u2 : (addFixed32Bytes 2 4294967295).length = 5 := by decide
  have u3 : (addUInt32Bytes 3 0).length = 2 := by decide
  have u4 : (addTagBytes 4 2).length = 1 := by decide
  have u5 : (addVarintBytes 65606).length = 3 := by decide
  have u6 : (addFixed32Bytes 6 0).length = 5 := by decide
  have u7 : (addUInt32Bytes 10 3).length = 2 := by decide
  have u8 : (addBoolBytes 11 true).length = 2 := by decide
  have hmesh : (meshPacketBytes bigText 0 0).length = 65631 := by
    simp only [meshPacketBytes, addNestedBytes, List.length_append, hdata,
      u1, u2, u3, u4, u5, u6, u7, u8]
  have u9 : (addTagBytes 1 2).length = 1 := by decide
  have u10 : (addVarintBytes 65631).length = 3 := by decide
  simp only [toRadioMsgBytes, addNestedBytes, List.length_append, hmesh, u9, u10]

/-- C2 counterexample: for a text of 65600 `a` characters the encoded
`ToRadio` payload is 65635 bytes (above 65535), yet the framing step
produces a frame anyway — no `EncodingError` exists in the code — and its
16-bit length field holds `0x0063 = 99`, not the payload byte count. -/
theorem frame_no_size_check_counterexample :
    65535 < (toRadioMsgBytes bigText 0 0).length ∧
    sendTextFrame bigText 0 0 =
      148 :: 195 :: 0 :: 99 :: toRadioMsgBytes bigText 0 0 ∧
    (0 * 256 + 99 : Nat) ≠ (toRadioMsgBytes bigText 0 0).length := by
  have hrad := bigText_toRadio_length
  refine ⟨by omega, ?_, by omega⟩
  unfold sendTextFrame
  rw [hrad]
  norm_num

/-- C2 amended: the framing step performs no size check and never fails;
for every payload it produces a frame whose 16-bit length field holds the
payload byte count modulo 65536 — exact whenever the payload is at most
65535 bytes, silently truncated above. -/
theorem frame_length_field_mod (text : List Nat) (ch pid : Nat) :
    ∃ hi lo, sendTextFrame text ch pid =
        148 :: 195 :: hi :: lo :: toRadioMsgBytes text ch pid ∧
      hi * 256 + lo = (toRadioMsgBytes text ch pid).length % 65536 := by
  refine ⟨(toRadioMsgBytes text ch pid).length / 256 % 256,
    (toRadioMsgBytes text ch pid).length % 256, ?_, by omega⟩
  unfold sendTextFrame
  simp

set_option maxRecDepth 100000 in
/-- C4 counterexample: `astralInput` is a well-formed UTF-16 string (184 `a`
characters and two complete astral characters U+1F600), yet the truncator's
output keeps an unpaired high surrogate `0xD83D` before the appended
ellipsis: the trimming step `slice(0, -1)` split the astral code point, so
the output (ignoring the ellipsis) is not made of complete code points of
the input. -/
theorem astral_truncation_splits_surrogate :
    wellFormedUtf16 astralInput = true ∧
    truncateText astralInput = List.replicate 184 97 ++ [55357] ++ ellipsisUnits ∧
    wellFormedUtf16 (List.replicate 184 97 ++ [55357]) = false :=
  ⟨by decide, by decide, by decide⟩

/-- C4 amended: each trimming step drops exactly one trailing UTF-16 code
unit; for inputs containing only Basic Multilingual Plane characters (no
surrogates) this is a whole character and never splits a code point — the
output, ignoring any appended ellipsis, is a well-formed initial segment of
the input. For inputs with astral characters a step may split a surrogate
pair (see the counterexample). -/
theorem bmp_truncation_whole_characters (s : List Nat)
    (h : ∀ u ∈ s, u < 55296 ∨ 57343 < u) :
    ∃ p t, p ++ t = s ∧ wellFormedUtf16 p = true ∧
      (truncateText s = p ∨ truncateText s = p ++ ellipsisUnits) := by
  simp only [truncateText]
  by_cases hc : (trimLoopF s.length s).length < s.length
  · rw [if_pos hc]
    obtain ⟨t1, ht1⟩ :=
      trimEllF_extendsTo (trimLoopF s.length s).length (trimLoopF s.length s)
    obtain ⟨t2, ht2⟩ := trimLoopF_extendsTo s.length s
    refine ⟨trimEllF (trimLoopF s.length s).length (trimLoopF s.length s),
      t1 ++ t2, ?_, ?_, Or.inr rfl⟩
    · rw [← List.append_assoc, ht1, ht2]
    · apply wellFormedUtf16_of_nonsurrogate
      intro u hu
      apply h
      have h1 : u ∈ trimLoopF s.length s := by
        rw [← ht1]
        exact List.mem_append_left _ hu
      rw [← ht2]
      exact List.mem_append_left _ h1
  · rw [if_neg hc]
    obtain ⟨t2, ht2⟩ := trimLoopF_extendsTo s.length s
    refine ⟨trimLoopF s.length s, t2, ht2, ?_, Or.inl rfl⟩
    apply wellFormedUtf16_of_nonsurrogate
    intro u hu
    apply h
    rw [← ht2]
    exact List.mem_append_left _ hu

/-- Witness for the amended C4 at text `"Hello"`. -/
theorem bmp_truncation_whole_characters_witness :
    (∀ u ∈ helloUnits, u < 55296 ∨ 57343 < u) ∧
    (∃ p t, p ++ t = helloUnits ∧ wellFormedUtf16 p = true ∧
      (truncateText helloUnits = p ∨ truncateText helloUnits = p ++ ellipsisUnits)) :=
  ⟨by decide, bmp_truncation_whole_characters helloUnits (by decide)⟩

/-- C6 counterexample: when the user cancels the device picker
(`NotFoundError` from `requestPort`), the catch block calls
`setConnected(false)`, which invokes every status listener with `false` —
a notification fires, contradicting "no notification fires". -/
theorem connect_failure_notifies_counterexample :
    (connect initialState true (.rejected .notFoundErr) .opened).2.1 = [false] ∧
    (connect initialState true (.rejected .notFoundErr) .opened).2.1 ≠ [] ∧
    (connect initialState true (.rejected .notFoundErr) .opened).1.isConnected = false :=
  ⟨by decide, by decide, by decide⟩

/-- C6 amended: on picker rejection, permission denial, device-busy or
security failure the state ends up disconnected and the typed error
distinguishes user cancellation (`NotFoundError`, mapped to the
"No device selected" message) from genuine failures — but every status
listener is notified with `false` by the catch block's `setConnected(false)`
(and a failed `open` additionally leaves the unopened port stored). -/
theorem connect_failure_behavior (st : HandlerState) (e : ErrName)
    (openRes : OpenOutcome) :
    connect st true (.rejected e) openRes =
      ({ st with isConnected := false }, [false], .error (mapConnectError e)) ∧
    connect st true .granted (.openFailed e) =
      ({ st with port := some ⟨false, false⟩, isConnected := false }, [false],
        .error (mapConnectError e)) ∧
    (mapConnectError e = .noDeviceSelected ↔ e = .notFoundErr) := by
  refine ⟨rfl, rfl, ?_⟩
  cases e <;> simp [mapConnectError]

/-- C8 counterexample: from the initial state a successful `connect` reaches
`connectedState`, which satisfies the invariant (open writable port while
connected). A second `connect` in which the user cancels the picker leaves
that open, write-capable port stored while setting `isConnected := false`:
the connect operation does not preserve the invariant. -/
theorem connect_cancel_keeps_open_port_counterexample :
    HandlerInv connectedState ∧
    connectedState = (connect initialState true .granted .opened).1 ∧
    writeCapable (connect connectedState true (.rejected .notFoundErr) .opened).1 = true ∧
    (connect connectedState true (.rejected .notFoundErr) .opened).1.isConnected = false :=
  ⟨by decide, by decide, by decide, by decide⟩

/-- C8 amended: disconnect, external-unplug cleanup, reconnect-to-existing
and the write path preserve the invariant that a write-capable handle is
held only while connected; `connect` preserves it whenever no write-capable
port is already held (in particular from the initial disconnected state) —
but a failed `connect` started while an open port is held leaves that port
held in the disconnected state. The write path acquires and releases
exactly one scoped writer on every exit path, so at most one writer is ever
held. -/
theorem handler_invariant_preservation (st : HandlerState) (supported : Bool)
    (req : RequestPortOutcome) (openRes : OpenOutcome) (avail : Option PortState)
    (m : Bool) (text : List Nat) (ch pid : Nat) (wOk : Bool)
    (hinv : HandlerInv st) :
    HandlerInv (cleanupAndNotify st).1 ∧
    HandlerInv (onUnplug st m).1 ∧
    HandlerInv (connectToExisting st supported avail openRes).1 ∧
    (writeCapable st = false → HandlerInv (connect st supported req openRes).1) ∧
    ((sendTextOp st text ch pid wOk).2.1 = (sendTextOp st text ch pid wOk).2.2 ∧
      (sendTextOp st text ch pid wOk).2.1 ≤ 1) := by
  refine ⟨?_, ?_, ?_, ?_, ?_⟩
  · intro hca
    simp [cleanupAndNotify, writeCapable] at hca
  · unfold onUnplug
    by_cases hm : m = true
    · rw [if_pos hm]
      intro hca
      simp [cleanupAndNotify, writeCapable] at hca
    · rw [if_neg hm]
      exact hinv
  · unfold connectToExisting
    by_cases hs : supported = false
    · rw [if_pos hs]
      exact hinv
    · rw [if_neg hs]
      cases avail with
      | none => exact hinv
      | some p =>
        by_cases hrw : p.readable = true ∨ p.writable = true
        · simp only [if_pos hrw]
          intro _
          rfl
        · simp only [if_neg hrw]
          cases openRes with
          | opened =>
            intro _
            rfl
          | openFailed e =>
            intro hca
            simp only [writeCapable] at hca
            exact absurd (Or.inr hca) hrw
  · intro hnp
    unfold connect
    by_cases hs : supported = false
    · rw [if_pos hs]
      exact hinv
    · rw [if_neg hs]
      cases req with
      | rejected e =>
        intro hca
        simp only [writeCapable] at hca
        simp only [writeCapable] at hnp
        rw [hnp] at hca
        exact absurd hca (by decide)
      | granted =>
        cases openRes with
        | opened =>
          intro _
          rfl
        | openFailed e =>
          intro hca
          simp only [writeCapable] at hca
          exact absurd hca (by decide)
  · rcases hp : st.port with _ | p
    · simp [sendTextOp, hp]
    · by_cases h1 : st.isConnected = false
      · simp [sendTextOp, hp, h1]
      · by_cases h2 : p.writable = false
        · simp [sendTextOp, hp, h1, h2]
        · by_cases h3 : wOk = true
          · simp [sendTextOp, hp, h1, h2, h3]
          · simp [sendTextOp, hp, h1, h2, h3]

/-- Witness for the amended C8 at the initial state with a successful
connect, no available port, a non-matching unplug event and a successful
write. -/
theorem handler_invariant_preservation_witness :
    HandlerInv initialState ∧
    (HandlerInv (cleanupAndNotify initialState).1 ∧
     HandlerInv (onUnplug initialState false).1 ∧
     HandlerInv (connectToExisting initialState true none .opened).1 ∧
     (writeCapable initialState = false →
       HandlerInv (connect initialState true .granted .opened).1) ∧
     ((sendTextOp initialState helloUnits 0 0 true).2.1 =
        (sendTextOp initialState helloUnits 0 0 true).2.2 ∧
      (sendTextOp initialState helloUnits 0 0 true).2.1 ≤ 1)) :=
  ⟨by decide,
    handler_invariant_preservation initialState true .granted .opened none false
      helloUnits 0 0 true (by decide)⟩

/-- C10 counterexample: for a 300-byte text, the network path's structured
body carries the raw request text (300 UTF-8 bytes, above the 190-byte
budget), not the truncator's output: the truncator runs only on the serial
path. -/
theorem http_raw_text_counterexample :
    sendToMeshtastic .http connectedState 0 longText 0 true =
      (.httpPut (buildHttpBody longText 0), connectedState) ∧
    (buildHttpBody longText 0).text = longText ∧
    190 < (encodeUnits longText).length ∧
    truncateText longText ≠ longText := by
  have henc : encodeUnits longText = longText := encodeUnits_replicate_a 300
  have hlen : (encodeUnits longText).length = 300 := by
    rw [henc, longText, List.length_replicate]
  refine ⟨rfl, rfl, by omega, ?_⟩
  intro hcontra
  have h1 := truncateText_utf8_le longText
  rw [hcontra, hlen] at h1
  simp [MAX_BYTES] at h1

/-- C10 amended: the truncator adjusts the text only on the serial path,
where the written frame is built from `truncateText text`; on the network
path the structured body's `decoded.text` field is the raw request text,
whatever its byte length. -/
theorem truncation_serial_only (st : HandlerState) (ch : Nat) (text : List Nat)
    (pid : Nat) (wOk : Bool) (p : PortState) (hconn : st.isConnected = true)
    (hport : st.port = some p) (hw : p.writable = true) (hwok : wOk = true) :
    sendToMeshtastic .http st ch text pid wOk = (.httpPut (buildHttpBody text ch), st) ∧
    (buildHttpBody text ch).text = text ∧
    sendToMeshtastic .serial st ch text pid wOk =
      (.serialSent (sendTextFrame (truncateText text) ch pid), st) := by
  refine ⟨rfl, rfl, ?_⟩
  have hc2 : ¬ st.isConnected = false := by simp [hconn]
  have hw2 : ¬ p.writable = false := by simp [hw]
  simp only [sendToMeshtastic, sendTextOp, hport, if_neg hc2, if_neg hw2, if_pos hwok]

/-- Witness for the amended C10 at the connected state with text `"Hello"`. -/
theorem truncation_serial_only_witness :
    connectedState.isConnected = true ∧
    sendToMeshtastic .http connectedState 0 helloUnits 0 true =
      (.httpPut (buildHttpBody helloUnits 0), connectedState) ∧
    (buildHttpBody helloUnits 0).text = helloUnits ∧
    sendToMeshtastic .serial connectedState 0 helloUnits 0 true =
      (.serialSent (sendTextFrame (truncateText helloUnits) 0 0), connectedState) :=
  ⟨by decide,
    (truncation_serial_only connectedState 0 helloUnits 0 true ⟨true, true⟩
      (by decide) (by decide) (by decide) (by decide)).1,
    (truncation_serial_only connectedState 0 helloUnits 0 true ⟨true, true⟩
      (by decide) (by decide) (by decide) (by decide)).2.1,
    (truncation_serial_only connectedState 0 helloUnits 0 true ⟨true, true⟩
      (by decide) (by decide) (by decide) (by decide)).2.2⟩

end RadioBridge
